import Mathlib

/-!
A verification development for the `GeoGrid` sparse geographic histogram
(`GDFB.py`).  Python floats are modelled by exact rationals, the dict
subclass by an association list in insertion order with unique keys, and
raising code by `Option` results.
-/

namespace GDFB

/-- Python float modulo `a % b` under exact rational arithmetic: the result
`a - b * floor (a / b)` carries the sign of `b`.  For `b = 0` Python raises
`ZeroDivisionError`; this total model returns `a` there, and theorems whose
meaning depends on the modulus carry nonzero-tilesize hypotheses. -/
def pymod (a b : ℚ) : ℚ := a - b * ⌊a / b⌋

/-- Python `int()` truncation toward zero, on an exact rational. -/
def pytrunc (q : ℚ) : ℤ := if q < 0 then -⌊-q⌋ else ⌊q⌋

/-- The `GeoGrid` aggregate: the dict-subclass instance of `GDFB.py`.
`rect` is the normalized (bottom-left, top-right) rectangle, `gridsize`
the `(columns, rows)` pair as given, `tilesize` the derived per-axis bin
width, and `store` the underlying dict contents (tile key to value, in
insertion order, keys unique). -/
structure GeoGrid where
  rect : (ℚ × ℚ) × (ℚ × ℚ)
  default : ℚ
  gridsize : ℤ × ℤ
  tilesize : ℚ × ℚ
  store : List ((ℚ × ℚ) × ℚ)
deriving DecidableEq

/-- Dict lookup: first entry with the given key. -/
def dlookup (k : ℚ × ℚ) : List ((ℚ × ℚ) × ℚ) → Option ℚ
  | [] => none
  | p :: l => if p.1 = k then some p.2 else dlookup k l

/-- Dict update `d[k] = v`: replace in place when the key is present
(keeping its position, as a Python dict does), otherwise append. -/
def dinsert (k : ℚ × ℚ) (v : ℚ) : List ((ℚ × ℚ) × ℚ) → List ((ℚ × ℚ) × ℚ)
  | [] => [(k, v)]
  | p :: l => if p.1 = k then (k, v) :: l else p :: dinsert k v l

/-- `GeoGrid.__init__(rect, gridsize, default)`.  Normalizes the rectangle
into (component-wise min, component-wise max), keeps `gridsize` as the pair
`(gridsize[0], gridsize[-1])`, and derives
`tilesize[d] = abs(rect[0][d] - rect[1][d]) / gridsize[d-1]` (cross-axis
indexing).  The dict starts empty.  Returns `none` exactly where Python
raises `ZeroDivisionError`: a zero `gridsize` component.  No other
validation exists in the source. -/
def mkGeoGrid (rect : (ℚ × ℚ) × (ℚ × ℚ)) (gridsize : ℤ × ℤ) (default : ℚ) :
    Option GeoGrid :=
  if gridsize.2 = 0 ∨ gridsize.1 = 0 then none
  else some
    { rect := ((min rect.1.1 rect.2.1, min rect.1.2 rect.2.2),
               (max rect.1.1 rect.2.1, max rect.1.2 rect.2.2))
      default := default
      gridsize := gridsize
      tilesize := (|rect.1.1 - rect.2.1| / (gridsize.2 : ℚ),
                   |rect.1.2 - rect.2.2| / (gridsize.1 : ℚ))
      store := [] }

/-- `GeoGrid.get_tile_of_coord(coord)`: per axis `d`,
`coord[d] - coord[d] % tilesize[d] + rect[0][d] % tilesize[d]`. -/
def get_tile_of_coord (g : GeoGrid) (coord : ℚ × ℚ) : ℚ × ℚ :=
  (coord.1 - pymod coord.1 g.tilesize.1 + pymod g.rect.1.1 g.tilesize.1,
   coord.2 - pymod coord.2 g.tilesize.2 + pymod g.rect.1.2 g.tilesize.2)

/-- `GeoGrid.__setitem__(coord, value)`: when `value != default`, store
`value` under the coordinate's tile key; otherwise do nothing (no delete). -/
def setCoord (g : GeoGrid) (coord : ℚ × ℚ) (value : ℚ) : GeoGrid :=
  if value ≠ g.default then
    { g with store := dinsert (get_tile_of_coord g coord) value g.store }
  else g

/-- `GeoGrid.__getitem__(coord)` together with `__missing__`: look up the
coordinate's tile key, falling back to the default value. -/
def getCoord (g : GeoGrid) (coord : ℚ × ℚ) : ℚ :=
  (dlookup (get_tile_of_coord g coord) g.store).getD g.default

/-- `GeoGrid.set_from_grid(tile, value)`: convert the integer grid index to
the anchor coordinate `tile[d] * tilesize[d] + rect[0][d]` and delegate to
the coordinate setter. -/
def set_from_grid (g : GeoGrid) (tile : ℤ × ℤ) (value : ℚ) : GeoGrid :=
  setCoord g ((tile.1 : ℚ) * g.tilesize.1 + g.rect.1.1,
              (tile.2 : ℚ) * g.tilesize.2 + g.rect.1.2) value

/-- One iteration of the `__grid_operation` loop body,
`geogrid[coord] op= other[coord]`: read both grids through the
tile-quantized accessors and write back through the tile-quantized setter. -/
def opStep (op : ℚ → ℚ → ℚ) (other geogrid : GeoGrid) (coord : ℚ × ℚ) :
    GeoGrid :=
  setCoord geogrid coord (op (getCoord geogrid coord) (getCoord other coord))

/-- The `__grid_operation` decorator applied to a scalar operation: raise
(`none`) when the rectangles differ, otherwise start from a copy of `self`
and run the loop body over `other`'s keys in insertion order.  The five
operators `__add__`, `__sub__`, `__mul__`, `__truediv__`, `__pow__` are the
instances of this definition at the corresponding scalar operations. -/
def gridOperation (op : ℚ → ℚ → ℚ) (self other : GeoGrid) : Option GeoGrid :=
  if self.rect ≠ other.rect then none
  else some ((other.store.map Prod.fst).foldl (opStep op other) self)

/-- `GeoGrid.__add__`. -/
def gadd (self other : GeoGrid) : Option GeoGrid :=
  gridOperation (fun a b => a + b) self other

/-- `GeoGrid.__sub__`. -/
def gsub (self other : GeoGrid) : Option GeoGrid :=
  gridOperation (fun a b => a - b) self other

/-- `GeoGrid.__mul__`. -/
def gmul (self other : GeoGrid) : Option GeoGrid :=
  gridOperation (fun a b => a * b) self other

/-- `GeoGrid.__truediv__` (rational division; Python additionally raises on
a zero divisor, a case no claim exercises). -/
def gdiv (self other : GeoGrid) : Option GeoGrid :=
  gridOperation (fun a b => a / b) self other

/-- `GeoGrid.yield_grid()`: for every stored tile, the integer index pair
`int((tile[d] - rect[0][d]) / tilesize[d])` paired with `self[tile]` (the
read goes back through the tile-quantized accessor). -/
def yield_grid (g : GeoGrid) : List ((ℤ × ℤ) × ℚ) :=
  g.store.map (fun p =>
    ((pytrunc ((p.1.1 - g.rect.1.1) / g.tilesize.1),
      pytrunc ((p.1.2 - g.rect.1.2) / g.tilesize.2)),
     getCoord g p.1))

/-- The sparse-representation invariant: every stored value differs from
the grid's default. -/
def Sparse (g : GeoGrid) : Prop := ∀ p ∈ g.store, p.2 ≠ g.default

/-- The grid of the spec's concrete scenarios: rectangle
`((0,0),(10,10))`, gridsize `(2,2)`, default `0`, hence tilesize `(5,5)`. -/
def demoBase : GeoGrid :=
  { rect := ((0, 0), (10, 10))
    default := 0
    gridsize := (2, 2)
    tilesize := (5, 5)
    store := [] }

/-- `demoBase` after `set((0,0), 4.0)`. -/
def demoA : GeoGrid := setCoord demoBase (0, 0) 4

/-- `demoBase` after `set((0,0), 2.0)`. -/
def demoB : GeoGrid := setCoord demoBase (0, 0) 2

/-- `demoBase` after `set((6,6), 3.0)` (tile `(5,5)`). -/
def demoC : GeoGrid := setCoord demoBase (6, 6) 3

/-- The result of `demoA.div(demoB)`. -/
def demoDiv : GeoGrid := (gdiv demoA demoB).getD demoBase

/-- The result of `demoA.sub(demoA)`. -/
def demoSub : GeoGrid := (gsub demoA demoA).getD demoBase

/-- The result of `demoBase.add(demoB)` (left operand empty). -/
def demoAddEmpty : GeoGrid := (gadd demoBase demoB).getD demoBase

/-- The result of `demoA.add(demoC)` (disjoint populated tiles). -/
def demoAC : GeoGrid := (gadd demoA demoC).getD demoBase

/-! ### Arithmetic lemmas about the Python modulus -/

theorem pymod_add_int_mul (a b : ℚ) (n : ℤ) (hb : b ≠ 0) :
    pymod (a + n * b) b = pymod a b := by
  unfold pymod
  have h : (a + n * b) / b = a / b + n := by
    rw [add_div, mul_div_assoc, div_self hb, mul_one]
  rw [h, Int.floor_add_int]
  push_cast
  ring

theorem pytrunc_intCast (n : ℤ) : pytrunc (n : ℚ) = n := by
  unfold pytrunc
  split
  · rw [← Int.cast_neg, Int.floor_intCast, neg_neg]
  · exact Int.floor_intCast n

/-! ### Lemmas about the dict model -/

theorem dlookup_eq_none_iff (t : ℚ × ℚ) (l : List ((ℚ × ℚ) × ℚ)) :
    dlookup t l = none ↔ t ∉ l.map Prod.fst := by
  induction l with
  | nil => simp [dlookup]
  | cons p l ih =>
    simp only [dlookup, List.map_cons, List.mem_cons]
    split
    · simp_all [eq_comm]
    · simp_all [eq_comm]

theorem dlookup_dinsert_self (k : ℚ × ℚ) (v : ℚ) (l : List ((ℚ × ℚ) × ℚ)) :
    dlookup k (dinsert k v l) = some v := by
  induction l with
  | nil => simp [dinsert, dlookup]
  | cons p l ih =>
    unfold dinsert
    split
    · simp [dlookup]
    · unfold dlookup
      split
      · exact absurd (by assumption) (by assumption)
      · exact ih

theorem dlookup_dinsert_ne (t k : ℚ × ℚ) (v : ℚ) (l : List ((ℚ × ℚ) × ℚ))
    (h : t ≠ k) : dlookup t (dinsert k v l) = dlookup t l := by
  have hkt : ¬(k = t) := fun hh => h hh.symm
  induction l with
  | nil => simp [dinsert, dlookup, hkt]
  | cons p l ih =>
    unfold dinsert
    split
    · rename_i hpk
      unfold dlookup
      rw [hpk]
      simp [hkt]
    · unfold dlookup
      split
      · rfl
      · exact ih

theorem mem_dinsert_self (k : ℚ × ℚ) (v : ℚ) (l : List ((ℚ × ℚ) × ℚ)) :
    (k, v) ∈ dinsert k v l := by
  induction l with
  | nil => simp [dinsert]
  | cons p l ih =>
    unfold dinsert
    split
    · exact List.mem_cons_self _ _
    · exact List.mem_cons_of_mem _ ih

theorem mem_dinsert (p : (ℚ × ℚ) × ℚ) (k : ℚ × ℚ) (v : ℚ)
    (l : List ((ℚ × ℚ) × ℚ)) (h : p ∈ dinsert k v l) : p = (k, v) ∨ p ∈ l := by
  induction l with
  | nil => simpa [dinsert] using h
  | cons q l ih =>
    unfold dinsert at h
    split at h
    · rcases List.mem_cons.mp h with rfl | h'
      · exact Or.inl rfl
      · exact Or.inr (List.mem_cons_of_mem _ h')
    · rcases List.mem_cons.mp h with rfl | h'
      · exact Or.inr (List.mem_cons_self _ _)
      · rcases ih h' with h'' | h''
        · exact Or.inl h''
        · exact Or.inr (List.mem_cons_of_mem _ h'')

/-! ### Metadata preservation -/

@[simp] theorem setCoord_rect (g : GeoGrid) (c : ℚ × ℚ) (v : ℚ) :
    (setCoord g c v).rect = g.rect := by
  unfold setCoord; split <;> rfl

@[simp] theorem setCoord_default (g : GeoGrid) (c : ℚ × ℚ) (v : ℚ) :
    (setCoord g c v).default = g.default := by
  unfold setCoord; split <;> rfl

@[simp] theorem setCoord_gridsize (g : GeoGrid) (c : ℚ × ℚ) (v : ℚ) :
    (setCoord g c v).gridsize = g.gridsize := by
  unfold setCoord; split <;> rfl

@[simp] theorem setCoord_tilesize (g : GeoGrid) (c : ℚ × ℚ) (v : ℚ) :
    (setCoord g c v).tilesize = g.tilesize := by
  unfold setCoord; split <;> rfl

@[simp] theorem opStep_rect (op : ℚ → ℚ → ℚ) (other g : GeoGrid) (c : ℚ × ℚ) :
    (opStep op other g c).rect = g.rect := by
  unfold opStep; simp

@[simp] theorem opStep_default (op : ℚ → ℚ → ℚ) (other g : GeoGrid) (c : ℚ × ℚ) :
    (opStep op other g c).default = g.default := by
  unfold opStep; simp

@[simp] theorem opStep_gridsize (op : ℚ → ℚ → ℚ) (other g : GeoGrid) (c : ℚ × ℚ) :
    (opStep op other g c).gridsize = g.gridsize := by
  unfold opStep; simp

@[simp] theorem opStep_tilesize (op : ℚ → ℚ → ℚ) (other g : GeoGrid) (c : ℚ × ℚ) :
    (opStep op other g c).tilesize = g.tilesize := by
  unfold opStep; simp

theorem get_tile_congr (g₁ g₂ : GeoGrid) (hts : g₁.tilesize = g₂.tilesize)
    (hr : g₁.rect = g₂.rect) (c : ℚ × ℚ) :
    get_tile_of_coord g₁ c = get_tile_of_coord g₂ c := by
  unfold get_tile_of_coord; rw [hts, hr]

theorem foldl_opStep_rect (op : ℚ → ℚ → ℚ) (other : GeoGrid)
    (L : List (ℚ × ℚ)) : ∀ g : GeoGrid,
    (L.foldl (opStep op other) g).rect = g.rect := by
  induction L with
  | nil => intro g; rfl
  | cons k L ih => intro g; rw [List.foldl_cons, ih, opStep_rect]

theorem foldl_opStep_default (op : ℚ → ℚ → ℚ) (other : GeoGrid)
    (L : List (ℚ × ℚ)) : ∀ g : GeoGrid,
    (L.foldl (opStep op other) g).default = g.default := by
  induction L with
  | nil => intro g; rfl
  | cons k L ih => intro g; rw [List.foldl_cons, ih, opStep_default]

theorem foldl_opStep_gridsize (op : ℚ → ℚ → ℚ) (other : GeoGrid)
    (L : List (ℚ × ℚ)) : ∀ g : GeoGrid,
    (L.foldl (opStep op other) g).gridsize = g.gridsize := by
  induction L with
  | nil => intro g; rfl
  | cons k L ih => intro g; rw [List.foldl_cons, ih, opStep_gridsize]

theorem foldl_opStep_tilesize (op : ℚ → ℚ → ℚ) (other : GeoGrid)
    (L : List (ℚ × ℚ)) : ∀ g : GeoGrid,
    (L.foldl (opStep op other) g).tilesize = g.tilesize := by
  induction L with
  | nil => intro g; rfl
  | cons k L ih => intro g; rw [List.foldl_cons, ih, opStep_tilesize]

theorem getCoord_fixed (g : GeoGrid) (t : ℚ × ℚ)
    (ht : get_tile_of_coord g t = t) :
    getCoord g t = (dlookup t g.store).getD g.default := by
  unfold getCoord; rw [ht]

theorem opStep_store_lookup_ne (op : ℚ → ℚ → ℚ) (other g : GeoGrid)
    (k t : ℚ × ℚ) (hk : get_tile_of_coord g k = k) (htk : t ≠ k) :
    dlookup t (opStep op other g k).store = dlookup t g.store := by
  unfold opStep setCoord
  split
  · show dlookup t (dinsert (get_tile_of_coord g k) _ g.store) = _
    rw [hk]
    exact dlookup_dinsert_ne t k _ g.store htk
  · rfl

/-- Keys not touched by the `__grid_operation` loop keep their storage
binding: each iteration writes only at its own (tile-anchored) key. -/
theorem foldl_opStep_dlookup_notmem (op : ℚ → ℚ → ℚ) (other : GeoGrid)
    (t : ℚ × ℚ) (L : List (ℚ × ℚ)) : ∀ g : GeoGrid,
    (∀ k ∈ L, get_tile_of_coord g k = k) → t ∉ L →
    dlookup t (L.foldl (opStep op other) g).store = dlookup t g.store := by
  induction L with
  | nil => intro g _ _; rfl
  | cons k L ih =>
    intro g hfix ht
    rw [List.foldl_cons]
    have hk : get_tile_of_coord g k = k := hfix k (List.mem_cons_self k L)
    have htk : t ≠ k := fun h => ht (h ▸ List.mem_cons_self k L)
    have hfix' : ∀ k' ∈ L, get_tile_of_coord (opStep op other g k) k' = k' := by
      intro k' hk'
      rw [get_tile_congr (opStep op other g k) g (by simp) (by simp)]
      exact hfix k' (List.mem_cons_of_mem _ hk')
    rw [ih (opStep op other g k) hfix' (fun h => ht (List.mem_cons_of_mem _ h))]
    exact opStep_store_lookup_ne op other g k t hk htk

/-- The binding a key present in the iterated key list holds after the
`__grid_operation` loop: the scalar result of combining the base grid's
resident value with `other`'s value, stored when it differs from the
default, and the untouched prior binding otherwise. -/
theorem foldl_opStep_dlookup_mem (op : ℚ → ℚ → ℚ) (other : GeoGrid)
    (t : ℚ × ℚ) (L : List (ℚ × ℚ)) : ∀ g : GeoGrid,
    (∀ k ∈ L, get_tile_of_coord g k = k) → L.Nodup → t ∈ L →
    dlookup t (L.foldl (opStep op other) g).store =
      if op ((dlookup t g.store).getD g.default) (getCoord other t) ≠ g.default
      then some (op ((dlookup t g.store).getD g.default) (getCoord other t))
      else dlookup t g.store := by
  induction L with
  | nil => intro g _ _ ht; cases ht
  | cons k L ih =>
    intro g hfix hnd ht
    rw [List.foldl_cons]
    have hfix' : ∀ k' ∈ L, get_tile_of_coord (opStep op other g k) k' = k' := by
      intro k' hk'
      rw [get_tile_congr (opStep op other g k) g (by simp) (by simp)]
      exact hfix k' (List.mem_cons_of_mem _ hk')
    rcases List.mem_cons.mp ht with rfl | htL
    · have hk : get_tile_of_coord g t = t := hfix t (List.mem_cons_self t L)
      have htL : t ∉ L := (List.nodup_cons.mp hnd).1
      rw [foldl_opStep_dlookup_notmem op other t L (opStep op other g t) hfix' htL]
      unfold opStep setCoord
      rw [getCoord_fixed g t hk]
      by_cases hval :
          op ((dlookup t g.store).getD g.default) (getCoord other t) ≠ g.default
      · rw [if_pos hval, if_pos hval, hk]
        exact dlookup_dinsert_self t _ g.store
      · rw [if_neg hval, if_neg hval]
    · have hk : get_tile_of_coord g k = k := hfix k (List.mem_cons_self k L)
      have htk : t ≠ k := by
        rintro rfl; exact (List.nodup_cons.mp hnd).1 htL
      rw [ih (opStep op other g k) hfix' (List.nodup_cons.mp hnd).2 htL,
        opStep_store_lookup_ne op other g k t hk htk, opStep_default]

/-- `__grid_operation` succeeds exactly on equal rectangles, and on success
the result is the fold of the loop body over `other`'s keys starting from
the copy of `self`. -/
theorem gridOperation_eq_some (op : ℚ → ℚ → ℚ) (self other g : GeoGrid)
    (hop : gridOperation op self other = some g) :
    self.rect = other.rect ∧
    g = (other.store.map Prod.fst).foldl (opStep op other) self := by
  unfold gridOperation at hop
  split at hop
  · cases hop
  · exact ⟨not_not.mp (by assumption), (Option.some.inj hop).symm⟩

theorem sparse_setCoord (g : GeoGrid) (c : ℚ × ℚ) (v : ℚ) (hs : Sparse g) :
    Sparse (setCoord g c v) := by
  unfold setCoord
  split
  · intro p hp
    rcases mem_dinsert p _ _ _ hp with rfl | hp'
    · exact (by assumption : v ≠ g.default)
    · exact hs p hp'
  · exact hs

theorem sparse_foldl (op : ℚ → ℚ → ℚ) (other : GeoGrid) (L : List (ℚ × ℚ)) :
    ∀ g : GeoGrid, Sparse g → Sparse (L.foldl (opStep op other) g) := by
  induction L with
  | nil => exact fun g hs => hs
  | cons k L ih =>
    intro g hs
    rw [List.foldl_cons]
    exact ih _ (sparse_setCoord g k _ hs)

/-! ### Claims -/

/-- Claim C1: for every grid the constructor accepts, `get_tile_of_coord`
returns per axis `coord[d] - coord[d] % tilesize[d] + rect[0][d] % tilesize[d]`
(with `rect` the grid's normalized rectangle), the tile size is
`|rect[0][d] - rect[1][d]| / gridsize[d-1]` with cross-axis indexing (the
lat width divides by the rows component, the lon width by the columns
component), and for rectangle ((0,0),(10,10)) with gridsize (2,2) the tile
size is (5,5). -/
theorem C1_tile_mapping (rect : (ℚ × ℚ) × (ℚ × ℚ)) (gridsize : ℤ × ℤ)
    (dflt : ℚ) (g : GeoGrid) (h : mkGeoGrid rect gridsize dflt = some g) :
    (∀ coord : ℚ × ℚ, get_tile_of_coord g coord =
      (coord.1 - pymod coord.1 g.tilesize.1 + pymod g.rect.1.1 g.tilesize.1,
       coord.2 - pymod coord.2 g.tilesize.2 + pymod g.rect.1.2 g.tilesize.2)) ∧
    g.tilesize = (|rect.1.1 - rect.2.1| / (gridsize.2 : ℚ),
                  |rect.1.2 - rect.2.2| / (gridsize.1 : ℚ)) ∧
    (rect = ((0, 0), (10, 10)) → gridsize = (2, 2) → g.tilesize = (5, 5)) := by
  unfold mkGeoGrid at h
  split at h
  · cases h
  · obtain rfl := Option.some.inj h
    refine ⟨fun coord => rfl, rfl, ?_⟩
    rintro rfl rfl
    norm_num

/-- Witness for C1 at the spec's concrete configuration. -/
theorem C1_witness :
    mkGeoGrid ((0, 0), (10, 10)) (2, 2) 0 = some demoBase ∧
    demoBase.tilesize = (5, 5) := by
  have hmk : mkGeoGrid ((0, 0), (10, 10)) (2, 2) 0 = some demoBase := by
    norm_num [mkGeoGrid, demoBase]
  exact ⟨hmk, (C1_tile_mapping _ _ _ _ hmk).2.2 rfl rfl⟩

/-- Claim C2 is false as literally stated: when the combined scalar value
equals the default, `__setitem__` refuses the write, so the result keeps
the value copied from `self` instead of the combined value.  Concretely
`demoA.sub(demoA)` combines 4.0 - 4.0 = 0.0 at tile (0,0), yet the result
still reads 4.0 there while the claim demands 0.0. -/
theorem C2_counterexample :
    gsub demoA demoA = some demoSub ∧
    getCoord demoA (0, 0) - getCoord demoA (0, 0) = 0 ∧
    getCoord demoSub (0, 0) = 4 ∧ (4 : ℚ) ≠ 0 := by
  refine ⟨?_, ?_, ?_, by norm_num⟩ <;>
    norm_num [demoSub, gsub, gridOperation, demoA, demoBase, setCoord, getCoord,
      dlookup, dinsert, get_tile_of_coord, pymod, opStep, List.foldl]

/-- Claim C2 (amended): for any of the binary operators (the rectangles
necessarily agree for the operation to succeed), with `other`'s stored keys
pairwise distinct and tile-anchored for `self`'s tiling (both automatic for
dict storage populated through the setter when the grids share a tile
size), the result's value at each key `t` of `other`'s storage is `self`'s
value at `t` combined with `other`'s value at `t` by the scalar operator —
provided the combined value differs from the default; otherwise the write
is a silent no-op (see the counterexample). -/
theorem C2_operator_values (op : ℚ → ℚ → ℚ) (self other g : GeoGrid)
    (hkeys : ∀ p ∈ other.store, get_tile_of_coord self p.1 = p.1)
    (hnd : (other.store.map Prod.fst).Nodup)
    (hop : gridOperation op self other = some g)
    (t : ℚ × ℚ) (ht : t ∈ other.store.map Prod.fst)
    (hval : op (getCoord self t) (getCoord other t) ≠ self.default) :
    getCoord g t = op (getCoord self t) (getCoord other t) := by
  obtain ⟨hrect, rfl⟩ := gridOperation_eq_some op self other g hop
  set L := other.store.map Prod.fst with hL
  have hfix : ∀ k ∈ L, get_tile_of_coord self k = k := by
    intro k hk
    rcases List.mem_map.mp hk with ⟨p, hp, rfl⟩
    exact hkeys p hp
  have htt : get_tile_of_coord self t = t := hfix t ht
  have hmeta : get_tile_of_coord (L.foldl (opStep op other) self) t = t := by
    rw [get_tile_congr _ self (foldl_opStep_tilesize op other L self)
      (foldl_opStep_rect op other L self)]
    exact htt
  have hself : getCoord self t = (dlookup t self.store).getD self.default :=
    getCoord_fixed self t htt
  rw [getCoord_fixed _ t hmeta,
    foldl_opStep_dlookup_mem op other t L self hfix hnd ht,
    foldl_opStep_default op other L self, hself]
  rw [hself] at hval
  rw [if_pos hval, Option.getD_some]

/-- Witness for C2: the spec's division scenario — grids holding 4.0 and
2.0 at the tile of (0,0) divide to 2.0 there. -/
theorem C2_witness : getCoord demoDiv (0, 0) = 2 := by
  have h := C2_operator_values (fun a b => a / b) demoA demoB demoDiv
    (by norm_num [demoA, demoB, demoBase, setCoord, dinsert, get_tile_of_coord, pymod])
    (by norm_num [demoB, demoBase, setCoord, dinsert])
    (by norm_num [demoDiv, gdiv, gridOperation, demoA, demoB, demoBase, setCoord,
      dinsert, get_tile_of_coord, pymod, getCoord, dlookup, opStep, List.foldl])
    (0, 0)
    (by norm_num [demoB, demoBase, setCoord, dinsert, get_tile_of_coord, pymod])
    (by norm_num [demoA, demoB, demoBase, setCoord, dinsert, get_tile_of_coord,
      pymod, getCoord, dlookup])
  rw [h]
  norm_num [demoA, demoB, demoBase, setCoord, dinsert, get_tile_of_coord, pymod,
    getCoord, dlookup]

/-- Claim C3 is false as literally stated: a tile present only in `other`
IS introduced into the result whenever the combined value differs from the
default.  `demoBase.add(demoB)`: the left operand stores nothing, the right
stores 2.0 at tile (0,0); the sum 0.0 + 2.0 = 2.0 is written, so the key
appears in the result's storage. -/
theorem C3_counterexample :
    gadd demoBase demoB = some demoAddEmpty ∧
    dlookup (0, 0) demoBase.store = none ∧
    dlookup (0, 0) demoB.store = some 2 ∧
    dlookup (0, 0) demoAddEmpty.store = some 2 := by
  refine ⟨?_, ?_, ?_, ?_⟩ <;>
    norm_num [demoAddEmpty, gadd, gridOperation, demoB, demoBase, setCoord,
      getCoord, dlookup, dinsert, get_tile_of_coord, pymod, opStep, List.foldl]

/-- Claim C3 (amended): under the binary operators (keys of `other`
pairwise distinct and tile-anchored for `self`), a tile key untouched by
the iteration — in particular one present only in `self` — keeps its
storage binding and its read value; a key present only in `other` ends with
binding `some (op default otherValue)` when that combination differs from
the default (so such tiles ARE introduced, e.g. by add with default 0), and
stays absent exactly when the combination equals the default (e.g. mul or
div with default 0). -/
theorem C3_operator_asymmetry (op : ℚ → ℚ → ℚ) (self other g : GeoGrid)
    (hkeys : ∀ p ∈ other.store, get_tile_of_coord self p.1 = p.1)
    (hnd : (other.store.map Prod.fst).Nodup)
    (hop : gridOperation op self other = some g) (t : ℚ × ℚ) :
    (t ∉ other.store.map Prod.fst → get_tile_of_coord self t = t →
      dlookup t g.store = dlookup t self.store ∧
      getCoord g t = getCoord self t) ∧
    (t ∈ other.store.map Prod.fst → t ∉ self.store.map Prod.fst →
      dlookup t g.store =
        if op self.default (getCoord other t) ≠ self.default
        then some (op self.default (getCoord other t)) else none) := by
  obtain ⟨hrect, rfl⟩ := gridOperation_eq_some op self other g hop
  set L := other.store.map Prod.fst with hL
  have hfix : ∀ k ∈ L, get_tile_of_coord self k = k := by
    intro k hk
    rcases List.mem_map.mp hk with ⟨p, hp, rfl⟩
    exact hkeys p hp
  constructor
  · intro htL htt
    have hst := foldl_opStep_dlookup_notmem op other t L self hfix htL
    refine ⟨hst, ?_⟩
    have hmeta : get_tile_of_coord (L.foldl (opStep op other) self) t = t := by
      rw [get_tile_congr _ self (foldl_opStep_tilesize op other L self)
        (foldl_opStep_rect op other L self)]
      exact htt
    rw [getCoord_fixed _ t hmeta, hst, foldl_opStep_default op other L self,
      getCoord_fixed self t htt]
  · intro htL hts
    have hnone : dlookup t self.store = none :=
      (dlookup_eq_none_iff t self.store).mpr hts
    rw [foldl_opStep_dlookup_mem op other t L self hfix hnd htL, hnone]
    simp

/-- Witness for C3: adding `demoC` (3.0 at tile (5,5)) to `demoA` (4.0 at
tile (0,0)) keeps `demoA`'s value at (0,0); the tile unique to the right
operand is introduced with value 0 + 3. -/
theorem C3_witness :
    getCoord demoAC (0, 0) = getCoord demoA (0, 0) ∧
    dlookup (5, 5) demoAC.store = some 3 := by
  have h := C3_operator_asymmetry (fun a b => a + b) demoA demoC demoAC
    (by norm_num [demoC, demoA, demoBase, setCoord, dinsert, get_tile_of_coord, pymod])
    (by norm_num [demoC, demoBase, setCoord, dinsert])
    (by norm_num [demoAC, gadd, gridOperation, demoA, demoC, demoBase, setCoord,
      dinsert, get_tile_of_coord, pymod, getCoord, dlookup, opStep, List.foldl])
  constructor
  · exact ((h (0, 0)).1
      (by norm_num [demoC, demoBase, setCoord, dinsert, get_tile_of_coord, pymod,
        Prod.ext_iff])
      (by norm_num [demoA, demoBase, setCoord, dinsert, get_tile_of_coord, pymod])).2
  · have h2 := (h (5, 5)).2
      (by norm_num [demoC, demoBase, setCoord, dinsert, get_tile_of_coord, pymod])
      (by norm_num [demoA, demoBase, setCoord, dinsert, get_tile_of_coord, pymod,
        Prod.ext_iff])
    rw [h2]
    norm_num [demoA, demoC, demoBase, setCoord, dinsert, get_tile_of_coord, pymod,
      getCoord, dlookup]

/-- Claim C4 is false as stated: the constructor validates nothing.  A
degenerate rectangle (zero extent along the lat axis) is accepted, and so
is a negative gridsize component — neither raises. -/
theorem C4_counterexample :
    mkGeoGrid ((0, 0), (0, 10)) (2, 2) 0 ≠ none ∧
    mkGeoGrid ((0, 0), (10, 10)) (-2, 2) 0 ≠ none := by
  constructor <;>
    (norm_num [mkGeoGrid]) <;> exact fun h => Option.noConfusion h

/-- Claim C4 (amended): construction fails — with Python's native
ZeroDivisionError raised by the tile-size division, there being no
ConfigurationError in the code — exactly when a gridsize component is
zero; negative gridsize components and degenerate (zero-extent)
rectangles are accepted without error. -/
theorem C4_construction (rect : (ℚ × ℚ) × (ℚ × ℚ)) (gridsize : ℤ × ℤ)
    (dflt : ℚ) :
    mkGeoGrid rect gridsize dflt = none ↔
      gridsize.1 = 0 ∨ gridsize.2 = 0 := by
  constructor
  · intro h
    unfold mkGeoGrid at h
    split at h
    · tauto
    · cases h
  · intro h
    unfold mkGeoGrid
    rw [if_pos (by tauto)]

/-- Claim C5: a binary operation fails exactly when the two normalized
rectangles differ component-wise, regardless of gridsize; the check runs
before the copy and the loop, and in this pure embedding the operand grids
are values that no operation can mutate. -/
theorem C5_incompatible_rects (op : ℚ → ℚ → ℚ) (self other : GeoGrid) :
    gridOperation op self other = none ↔ self.rect ≠ other.rect := by
  unfold gridOperation
  split
  · simp_all
  · simp_all

/-- Claim C6: the sparse-storage invariant — every stored value differs
from the default — holds at construction and is preserved by the coordinate
setter, the grid-index setter and the binary operators; moreover setting a
coordinate to the default is the identity on the grid (no entry created,
no entry removed). -/
theorem C6_sparse_invariant :
    (∀ rect gridsize dflt g, mkGeoGrid rect gridsize dflt = some g →
      Sparse g) ∧
    (∀ g (c : ℚ × ℚ) v, Sparse g → Sparse (setCoord g c v)) ∧
    (∀ g (i : ℤ × ℤ) v, Sparse g → Sparse (set_from_grid g i v)) ∧
    (∀ op self other g, Sparse self → gridOperation op self other = some g →
      Sparse g) ∧
    (∀ g (c : ℚ × ℚ), setCoord g c g.default = g) := by
  refine ⟨?_, ?_, ?_, ?_, ?_⟩
  · intro rect gridsize dflt g h
    unfold mkGeoGrid at h
    split at h
    · cases h
    · obtain rfl := Option.some.inj h
      intro p hp
      cases hp
  · exact fun g c v hs => sparse_setCoord g c v hs
  · intro g i v hs
    unfold set_from_grid
    exact sparse_setCoord _ _ _ hs
  · intro op self other g hs hop
    obtain ⟨_, rfl⟩ := gridOperation_eq_some op self other g hop
    exact sparse_foldl op other _ self hs
  · intro g c
    unfold setCoord
    simp

/-- Witness for C6: the invariant at concrete grids, and the no-op write. -/
theorem C6_witness :
    Sparse demoAC ∧ setCoord demoBase (1, 1) demoBase.default = demoBase := by
  have hbase : Sparse demoBase :=
    C6_sparse_invariant.1 ((0, 0), (10, 10)) (2, 2) 0 demoBase
      (by norm_num [mkGeoGrid, demoBase])
  have hA : Sparse demoA := C6_sparse_invariant.2.1 demoBase (0, 0) 4 hbase
  constructor
  · exact C6_sparse_invariant.2.2.2.1 (fun a b => a + b) demoA demoC demoAC hA
      (by norm_num [demoAC, gadd, gridOperation, demoA, demoC, demoBase, setCoord,
        dinsert, get_tile_of_coord, pymod, getCoord, dlookup, opStep, List.foldl])
  · exact C6_sparse_invariant.2.2.2.2 demoBase (1, 1)

/-- Claim C7: reading a coordinate whose tile has no storage entry is not
an error: it returns the default.  The read goes through the tile mapping,
never an exact-coordinate lookup, and the getter is a pure function, so no
entry is created.  The nonzero tile sizes record that Python's modulus is
only defined there. -/
theorem C7_missing_read (g : GeoGrid) (c : ℚ × ℚ)
    (_h1 : g.tilesize.1 ≠ 0) (_h2 : g.tilesize.2 ≠ 0)
    (h : dlookup (get_tile_of_coord g c) g.store = none) :
    getCoord g c = g.default := by
  unfold getCoord
  rw [h]
  rfl

/-- Witness for C7 at an unset tile of the demo grid. -/
theorem C7_witness : getCoord demoBase (7, 7) = demoBase.default :=
  C7_missing_read demoBase (7, 7) (by norm_num [demoBase])
    (by norm_num [demoBase])
    (by norm_num [demoBase, dlookup, get_tile_of_coord, pymod])

/-- Claim C8: coordinates mapping to the same tile read the same value
after any single set from any grid state; concretely on rectangle
((0,0),(10,10)) with gridsize (2,2), after set((3,3), 7.0): (3,3) and
(4,4) read 7.0 and (6,6) reads the default 0.0. -/
theorem C8_same_tile_reads (g : GeoGrid) (c c₁ c₂ : ℚ × ℚ) (v : ℚ)
    (h : get_tile_of_coord g c₁ = get_tile_of_coord g c₂) :
    getCoord (setCoord g c v) c₁ = getCoord (setCoord g c v) c₂ ∧
    (∀ g₀, mkGeoGrid ((0, 0), (10, 10)) (2, 2) 0 = some g₀ →
      getCoord (setCoord g₀ (3, 3) 7) (3, 3) = 7 ∧
      getCoord (setCoord g₀ (3, 3) 7) (4, 4) = 7 ∧
      getCoord (setCoord g₀ (3, 3) 7) (6, 6) = 0) := by
  constructor
  · unfold getCoord
    rw [get_tile_congr (setCoord g c v) g (by simp) (by simp) c₁,
      get_tile_congr (setCoord g c v) g (by simp) (by simp) c₂, h]
  · intro g₀ h₀
    have hmk : mkGeoGrid ((0, 0), (10, 10)) (2, 2) 0 = some demoBase := by
      norm_num [mkGeoGrid, demoBase]
    rw [hmk] at h₀
    obtain rfl := Option.some.inj h₀
    refine ⟨?_, ?_, ?_⟩ <;>
      norm_num [demoBase, setCoord, getCoord, dlookup, dinsert,
        get_tile_of_coord, pymod, Prod.ext_iff]

/-- Witness for C8: the spec's concrete same-tile scenario. -/
theorem C8_witness :
    getCoord (setCoord demoBase (3, 3) 7) (3, 3) =
      getCoord (setCoord demoBase (3, 3) 7) (4, 4) ∧
    getCoord (setCoord demoBase (3, 3) 7) (4, 4) = 7 ∧
    getCoord (setCoord demoBase (3, 3) 7) (6, 6) = 0 := by
  have h := C8_same_tile_reads demoBase (3, 3) (3, 3) (4, 4) 7
    (by norm_num [get_tile_of_coord, demoBase, pymod])
  exact ⟨h.1, (h.2 demoBase (by norm_num [mkGeoGrid, demoBase])).2.1,
    (h.2 demoBase (by norm_num [mkGeoGrid, demoBase])).2.2⟩

/-- Claim C9: for every integer grid index and non-default value, setting
through `set_from_grid` and exporting through `yield_grid` recovers the
pair (idx, v) — exactly, under this exact rational arithmetic (nonzero
tile sizes, as Python's modulus requires). -/
theorem C9_roundtrip (g : GeoGrid) (idx : ℤ × ℤ) (v : ℚ)
    (h1 : g.tilesize.1 ≠ 0) (h2 : g.tilesize.2 ≠ 0) (hv : v ≠ g.default) :
    (idx, v) ∈ yield_grid (set_from_grid g idx v) := by
  have hm1 : pymod ((idx.1 : ℚ) * g.tilesize.1 + g.rect.1.1) g.tilesize.1
      = pymod g.rect.1.1 g.tilesize.1 := by
    rw [add_comm]
    exact pymod_add_int_mul g.rect.1.1 g.tilesize.1 idx.1 h1
  have hm2 : pymod ((idx.2 : ℚ) * g.tilesize.2 + g.rect.1.2) g.tilesize.2
      = pymod g.rect.1.2 g.tilesize.2 := by
    rw [add_comm]
    exact pymod_add_int_mul g.rect.1.2 g.tilesize.2 idx.2 h2
  have hkey : get_tile_of_coord g
      ((idx.1 : ℚ) * g.tilesize.1 + g.rect.1.1,
       (idx.2 : ℚ) * g.tilesize.2 + g.rect.1.2)
      = ((idx.1 : ℚ) * g.tilesize.1 + g.rect.1.1,
         (idx.2 : ℚ) * g.tilesize.2 + g.rect.1.2) := by
    simp only [get_tile_of_coord, hm1, hm2, Prod.mk.injEq]
    constructor <;> ring
  have hstore : (set_from_grid g idx v).store =
      dinsert ((idx.1 : ℚ) * g.tilesize.1 + g.rect.1.1,
        (idx.2 : ℚ) * g.tilesize.2 + g.rect.1.2) v g.store := by
    unfold set_from_grid setCoord
    rw [if_pos hv, hkey]
  have hmem : (((idx.1 : ℚ) * g.tilesize.1 + g.rect.1.1,
      (idx.2 : ℚ) * g.tilesize.2 + g.rect.1.2), v) ∈
      (set_from_grid g idx v).store := by
    rw [hstore]
    exact mem_dinsert_self _ _ _
  unfold yield_grid
  refine List.mem_map.mpr ⟨_, hmem, ?_⟩
  have hrect : (set_from_grid g idx v).rect = g.rect := by
    unfold set_from_grid; simp
  have hts : (set_from_grid g idx v).tilesize = g.tilesize := by
    unfold set_from_grid; simp
  have hkey' : get_tile_of_coord (set_from_grid g idx v)
      ((idx.1 : ℚ) * g.tilesize.1 + g.rect.1.1,
       (idx.2 : ℚ) * g.tilesize.2 + g.rect.1.2)
      = ((idx.1 : ℚ) * g.tilesize.1 + g.rect.1.1,
         (idx.2 : ℚ) * g.tilesize.2 + g.rect.1.2) := by
    rw [get_tile_congr _ g hts hrect]
    exact hkey
  rw [getCoord_fixed _ _ hkey', hstore, dlookup_dinsert_self, hrect, hts]
  simp only [Option.getD_some]
  have hq1 : ((idx.1 : ℚ) * g.tilesize.1 + g.rect.1.1 - g.rect.1.1) /
      g.tilesize.1 = (idx.1 : ℚ) := by
    rw [add_sub_cancel_right, mul_div_assoc, div_self h1, mul_one]
  have hq2 : ((idx.2 : ℚ) * g.tilesize.2 + g.rect.1.2 - g.rect.1.2) /
      g.tilesize.2 = (idx.2 : ℚ) := by
    rw [add_sub_cancel_right, mul_div_assoc, div_self h2, mul_one]
  rw [hq1, hq2, pytrunc_intCast, pytrunc_intCast]

/-- Witness for C9 on the demo grid at index (1,1) with value 7.0. -/
theorem C9_witness :
    ((1, 1), (7 : ℚ)) ∈ yield_grid (set_from_grid demoBase (1, 1) 7) :=
  C9_roundtrip demoBase (1, 1) 7 (by norm_num [demoBase])
    (by norm_num [demoBase]) (by norm_num [demoBase])

/-- Claim C10: each binary operator is pure with respect to its operands.
In this embedding grids are immutable values and the operation writes only
to the copy of `self` that becomes the result, so the operands are
untouched by construction; the theorem records that the returned grid
carries `self`'s rectangle, gridsize, tilesize and default unchanged (only
the copied storage is updated). -/
theorem C10_operator_purity (op : ℚ → ℚ → ℚ) (self other g : GeoGrid)
    (hop : gridOperation op self other = some g) :
    g.rect = self.rect ∧ g.gridsize = self.gridsize ∧
    g.tilesize = self.tilesize ∧ g.default = self.default := by
  obtain ⟨_, rfl⟩ := gridOperation_eq_some op self other g hop
  exact ⟨foldl_opStep_rect op other _ self, foldl_opStep_gridsize op other _ self,
    foldl_opStep_tilesize op other _ self, foldl_opStep_default op other _ self⟩

/-- Witness for C10 at the division scenario. -/
theorem C10_witness :
    demoDiv.rect = demoA.rect ∧ demoDiv.gridsize = demoA.gridsize ∧
    demoDiv.tilesize = demoA.tilesize ∧ demoDiv.default = demoA.default :=
  C10_operator_purity (fun a b => a / b) demoA demoB demoDiv
    (by norm_num [demoDiv, gdiv, gridOperation, demoA, demoB, demoBase, setCoord,
      dinsert, get_tile_of_coord, pymod, getCoord, dlookup, opStep, List.foldl])

end GDFB
